import Mathlib

/-!
Verification of the MINI-RAG authentication / invitation / authorization core.

The definitions below are a shallow embedding of the Python source:
  * `src/utils/org_access.py`  — organization-level access control,
  * `src/utils/deps.py`        — request authentication gate and role guards,
  * `src/utils/security.py`    — password verification and JWT decoding,
  * `src/routes/auth.py`       — login, invite issuance, verification, redemption,
  * `src/helpers/config.py`    — the `Settings` configuration object.

Timestamps are modelled as integers (seconds); machine state (the relational
tables `users`, `user_memberships`, `user_invites`) is modelled as lists of
records, and each route handler becomes a pure function from state to
(result, state).  Cryptographic primitives (HMAC token hashing, Argon2
password hashing) are taken as function parameters: the code only relies on
their determinism and on the freshness of randomly generated tokens.
-/

namespace MiniRag

/-- Membership role, the Postgres enum `org_role AS ENUM ('ADMIN', 'USER')`. -/
inductive Role where
  | ADMIN
  | USER
deriving DecidableEq, Repr

/-- One entry of the `orgs` claim list embedded in the JWT at login:
`{"org_id": m.org_id, "role": m.role}` (src/routes/auth.py, login). -/
structure OrgClaim where
  org_id : Int
  role : Role
deriving DecidableEq, Repr

/-- The decoded JWT payload as built by `login`:
`{"sub": ..., "uid": ..., "is_super_admin": ..., "orgs": ...}`. -/
structure Principal where
  uid : Nat
  is_super_admin : Bool
  orgs : List OrgClaim
deriving DecidableEq, Repr

/-! ## src/utils/org_access.py — OrgAccessControl -/

/-- `OrgAccessControl.get_user_org_ids`: `[int(org["org_id"]) for org in user.get("orgs", [])]`. -/
def get_user_org_ids (user : Principal) : List Int :=
  user.orgs.map (fun m => m.org_id)

/-- `OrgAccessControl.get_user_admin_org_ids`: org ids of memberships whose role is ADMIN. -/
def get_user_admin_org_ids (user : Principal) : List Int :=
  (user.orgs.filter (fun m => m.role == Role.ADMIN)).map (fun m => m.org_id)

/-- `OrgAccessControl.can_access_project`: super admin always allowed, otherwise
`project_org_id in user_org_ids`. -/
def can_access_project (user : Principal) (project_org_id : Int) : Bool :=
  if user.is_super_admin then true
  else (get_user_org_ids user).contains project_org_id

/-- `OrgAccessControl.can_admin_project`: super admin always allowed, otherwise
`project_org_id in admin_org_ids`. -/
def can_admin_project (user : Principal) (project_org_id : Int) : Bool :=
  if user.is_super_admin then true
  else (get_user_admin_org_ids user).contains project_org_id

/-- `OrgAccessControl.validate_project_access`: dispatches on `require_admin`;
`true` means the check passes, `false` means the 403 branch is taken. -/
def validate_project_access (user : Principal) (project_org_id : Int) (require_admin : Bool) : Bool :=
  if require_admin then can_admin_project user project_org_id
  else can_access_project user project_org_id

/-- `require_org_role(required_roles)` from src/utils/deps.py, evaluated at a
resolved path `org_id`: super admin passes; otherwise some membership must
match the org and have a role in `required_roles`.  `true` = request admitted,
`false` = the 403 "Insufficient role" branch. -/
def require_org_role (required_roles : List Role) (user : Principal) (org_id : Int) : Bool :=
  if user.is_super_admin then true
  else user.orgs.any (fun m => m.org_id == org_id && required_roles.contains m.role)

/-- C1: super-admin principals are allowed unconditionally, for every target org
and requirement level; a non-super-admin principal is allowed iff its membership
list contains an entry for the target org whose role satisfies the requirement
(ADMIN required ⇒ role must be ADMIN; no requirement ⇒ any role suffices). -/
theorem c1_access_control_evaluation (u : Principal) (o : Int) (req : Bool) (roles : List Role) :
    (u.is_super_admin = true →
      validate_project_access u o req = true ∧ require_org_role roles u o = true) ∧
    (u.is_super_admin = false →
      (validate_project_access u o req = true ↔
        ∃ m ∈ u.orgs, m.org_id = o ∧ (req = true → m.role = Role.ADMIN)) ∧
      (require_org_role [Role.ADMIN] u o = true ↔
        ∃ m ∈ u.orgs, m.org_id = o ∧ m.role = Role.ADMIN)) := by
  constructor
  · intro hsa
    simp [validate_project_access, can_access_project, can_admin_project, require_org_role, hsa]
  · intro hsa
    constructor
    · cases req with
      | false =>
          simp [validate_project_access, can_access_project, get_user_org_ids, hsa,
            List.contains_iff_exists_mem_beq, List.mem_map]
      | true =>
          simp [validate_project_access, can_admin_project, get_user_admin_org_ids, hsa,
            List.contains_iff_exists_mem_beq, List.mem_map, List.mem_filter]
          constructor
          · rintro ⟨m, ⟨hm, hrole⟩, he⟩
            exact ⟨m, hm, he, hrole⟩
          · rintro ⟨m, hm, he, hrole⟩
            exact ⟨m, ⟨hm, hrole⟩, he⟩
    · simp [require_org_role, hsa, List.any_eq_true]

/-! ## src/utils/security.py — verify_password -/

/-- Python `hashed_password.startswith('$2')`, the bcrypt format tag test,
computed on the character list so that it evaluates inside the kernel. -/
def has_bcrypt_tag (hashed_password : String) : Bool :=
  hashed_password.data.take 2 == ['$', '2']

/-- `verify_password` from src/utils/security.py, parameterized by the
behaviour of its two passlib primitives: `ctx_verify` is
`pwd_context.verify` (the argon2+bcrypt `CryptContext`) and `bcrypt_verify`
is `bcrypt.verify`; `.error ()` models the primitive raising an exception.
The source wraps the context call in `try/except Exception`, falls back to
direct bcrypt verification when the digest starts with `$2`, and returns
`False` from every handler, so the embedding is a total `Bool`-valued
function: no primitive exception escapes to the caller. -/
def verify_password (ctx_verify bcrypt_verify : String → String → Except Unit Bool)
    (plain_password hashed_password : String) : Bool :=
  match ctx_verify plain_password hashed_password with
  | .ok b => b
  | .error _ =>
    if has_bcrypt_tag hashed_password then
      match bcrypt_verify plain_password hashed_password with
      | .ok b => b
      | .error _ => false
    else false

/-- C9: password verification is a pure total `Bool`-valued function — every
exception of the underlying primitives is handled — and on a malformed or
foreign-format digest (the primary verifier raises, and the digest either is
not bcrypt-tagged or also fails direct bcrypt verification) it fails closed
with `false`. -/
theorem c9_verify_password_fails_closed
    (cv bv : String → String → Except Unit Bool) (p h : String)
    (hc : cv p h = .error ())
    (hb : has_bcrypt_tag h = false ∨ bv p h = .error ()) :
    verify_password cv bv p h = false := by
  unfold verify_password
  rw [hc]
  rcases hb with hb | hb
  · simp [hb]
  · cases hsw : has_bcrypt_tag h <;> simp [hb]

/-- A passlib primitive that always raises (e.g. `UnknownHashError` on a
digest in no recognized format). -/
def raising_verify : String → String → Except Unit Bool := fun _ _ => .error ()

/-- Witness for C9 at a concrete malformed digest. -/
theorem c9_verify_password_fails_closed_witness :
    verify_password raising_verify raising_verify "pw" "not-a-digest" = false :=
  c9_verify_password_fails_closed raising_verify raising_verify "pw" "not-a-digest"
    rfl (Or.inl (by decide))

/-! ## src/utils/deps.py and src/utils/security.py — request authentication gate

`security.py` decodes with python-jose (`from jose import jwt`) while
`deps.py` imports PyJWT (`import jwt`) for its `except` clause; the two
packages define disjoint exception hierarchies below `Exception`. -/

/-- The Python exception classes involved in token decoding. -/
inductive ExcClass where
  | BaseExceptionCls
  | ExceptionCls
  | JOSEError                  -- jose.exceptions.JOSEError(Exception)
  | JoseJWTError               -- jose.exceptions.JWTError(JOSEError)
  | JoseExpiredSignatureError  -- jose.exceptions.ExpiredSignatureError(JWTError)
  | PyJWTError                 -- jwt.exceptions.PyJWTError(Exception)
  | InvalidTokenError          -- jwt.exceptions.InvalidTokenError(PyJWTError)
  | DecodeError                -- jwt.exceptions.DecodeError(InvalidTokenError)
  | ExpiredSignatureError      -- jwt.exceptions.ExpiredSignatureError(InvalidTokenError)
deriving DecidableEq, Repr

/-- Proper ancestors (superclasses) of each exception class, per the
python-jose and PyJWT sources. -/
def excAncestors : ExcClass → List ExcClass
  | .BaseExceptionCls => []
  | .ExceptionCls => [.BaseExceptionCls]
  | .JOSEError => [.ExceptionCls, .BaseExceptionCls]
  | .JoseJWTError => [.JOSEError, .ExceptionCls, .BaseExceptionCls]
  | .JoseExpiredSignatureError => [.JoseJWTError, .JOSEError, .ExceptionCls, .BaseExceptionCls]
  | .PyJWTError => [.ExceptionCls, .BaseExceptionCls]
  | .InvalidTokenError => [.PyJWTError, .ExceptionCls, .BaseExceptionCls]
  | .DecodeError => [.InvalidTokenError, .PyJWTError, .ExceptionCls, .BaseExceptionCls]
  | .ExpiredSignatureError => [.InvalidTokenError, .PyJWTError, .ExceptionCls, .BaseExceptionCls]

/-- Python `isinstance`: an exception of class `e` matches an `except c`
clause iff `e` is `c` or `c` is an ancestor of `e`. -/
def isInstanceOf (e c : ExcClass) : Bool :=
  e == c || (excAncestors e).contains c

/-- A presented bearer token, classified by the checks python-jose's
`jwt.decode` performs against the configured secret and the current time. -/
structure BearerToken where
  malformed : Bool
  signature_valid : Bool
  expired : Bool
  payload : Principal
deriving DecidableEq, Repr

/-- python-jose `jose.jwt.decode`: raises `JWTError` on malformed structure
or signature mismatch, `jose.ExpiredSignatureError` on an elapsed `exp`
claim, and otherwise returns the payload. -/
def joseJwtDecode (t : BearerToken) : Except ExcClass Principal :=
  if t.malformed then .error .JoseJWTError
  else if !t.signature_valid then .error .JoseJWTError
  else if t.expired then .error .JoseExpiredSignatureError
  else .ok t.payload

/-- `decode_token` from src/utils/security.py: a direct call to
`jose.jwt.decode`. -/
def decode_token (t : BearerToken) : Except ExcClass Principal :=
  joseJwtDecode t

/-- Outcome of the request authentication gate. -/
inductive GateResult where
  | principal (p : Principal)  -- decoded claims exposed as the request principal
  | unauthenticated            -- HTTPException 401 "Invalid or expired token"
  | uncaught (e : ExcClass)    -- exception escapes the handler (HTTP 500 crash)
deriving DecidableEq, Repr

/-- `get_current_user` from src/utils/deps.py: calls `decode_token` and
catches `(jwt.ExpiredSignatureError, jwt.InvalidTokenError, jwt.DecodeError)`
— the PyJWT classes, since `deps.py` does `import jwt`.  An exception whose
class is not a subclass of any of the three propagates out of the gate. -/
def get_current_user (t : BearerToken) : GateResult :=
  match decode_token t with
  | .ok payload => .principal payload
  | .error e =>
      if isInstanceOf e .ExpiredSignatureError || isInstanceOf e .InvalidTokenError
          || isInstanceOf e .DecodeError
      then .unauthenticated
      else .uncaught e

/-- C2 fails on the code: `decode_token` raises python-jose exception classes
(`jose.JWTError`, `jose.ExpiredSignatureError`), none of which is a subclass
of the PyJWT classes named in `get_current_user`'s `except` clause, so every
decoding failure — malformed token, bad signature, or elapsed expiry —
escapes the gate as an uncaught exception instead of the uniform
401 `InvalidOrExpired` rejection; only the success path behaves as claimed. -/
theorem c2_gate_crashes_on_invalid_token :
    get_current_user ⟨true, true, false, ⟨0, false, []⟩⟩ = .uncaught .JoseJWTError ∧
    get_current_user ⟨false, false, false, ⟨0, false, []⟩⟩ = .uncaught .JoseJWTError ∧
    get_current_user ⟨false, true, true, ⟨0, false, []⟩⟩
      = .uncaught .JoseExpiredSignatureError ∧
    (∀ p : Principal, get_current_user ⟨false, true, false, p⟩ = .principal p) :=
  ⟨rfl, rfl, rfl, fun _ => rfl⟩

/-! ## src/helpers/config.py — Settings (integer-valued fields) -/

/-- The integer-valued fields of the `Settings` object in
src/helpers/config.py, with their declared defaults (string-valued fields
play no part in the TTL computation).  `DAFAULT` typos are the source's. -/
structure Settings where
  FILE_MAX_SIZE : Int := 0
  FILE_DEFAULT_CHUNK_SIZE : Int := 0
  POSTGRES_PORT : Int := 0
  EMBEDDING_MODEL_SIZE : Int := 0
  INPUT_DAFAULT_MAX_CHARACTERS : Int := 0
  GENERATION_DAFAULT_MAX_TOKENS : Int := 0
  VECTOR_DB_PGVEC_INDEX_THRESHOLD : Int := 100
  ACCESS_TTL_MIN : Int := 15
  REFRESH_TTL_DAYS : Int := 30
  INVITE_TTL_HOURS : Int := 48
  SMTP_PORT : Int := 465
deriving DecidableEq, Repr

/-- Python `getattr` restricted to the integer-valued `Settings` fields;
`none` models `hasattr(settings, name) == False`.  `INVITE_TOKEN_TTL_HOURS`
is not among the fields declared in src/helpers/config.py, so the lookup for
it yields `none`. -/
def settings_int_attr (s : Settings) : String → Option Int
  | "FILE_MAX_SIZE" => some s.FILE_MAX_SIZE
  | "FILE_DEFAULT_CHUNK_SIZE" => some s.FILE_DEFAULT_CHUNK_SIZE
  | "POSTGRES_PORT" => some s.POSTGRES_PORT
  | "EMBEDDING_MODEL_SIZE" => some s.EMBEDDING_MODEL_SIZE
  | "INPUT_DAFAULT_MAX_CHARACTERS" => some s.INPUT_DAFAULT_MAX_CHARACTERS
  | "GENERATION_DAFAULT_MAX_TOKENS" => some s.GENERATION_DAFAULT_MAX_TOKENS
  | "VECTOR_DB_PGVEC_INDEX_THRESHOLD" => some s.VECTOR_DB_PGVEC_INDEX_THRESHOLD
  | "ACCESS_TTL_MIN" => some s.ACCESS_TTL_MIN
  | "REFRESH_TTL_DAYS" => some s.REFRESH_TTL_DAYS
  | "INVITE_TTL_HOURS" => some s.INVITE_TTL_HOURS
  | "SMTP_PORT" => some s.SMTP_PORT
  | _ => none

/-- `_invite_expires_at` from src/routes/auth.py, with time in seconds:
`utcnow() + timedelta(hours = s.INVITE_TOKEN_TTL_HOURS if hasattr(s, "INVITE_TOKEN_TTL_HOURS") else s.ACCESS_TTL_MIN)`. -/
def invite_expires_at (s : Settings) (now : Int) : Int :=
  now + 3600 * (match settings_int_attr s "INVITE_TOKEN_TTL_HOURS" with
    | some h => h
    | none => s.ACCESS_TTL_MIN)

/-- `expiry_dt` from src/utils/invites_async.py:
`utcnow() + timedelta(hours=get_settings().INVITE_TTL_HOURS)`. -/
def expiry_dt (s : Settings) (now : Int) : Int :=
  now + 3600 * s.INVITE_TTL_HOURS

/-- The shipped configuration defaults. -/
def defaultSettings : Settings := {}

/-- C7 fails on the code: `_invite_expires_at` looks up the nonexistent
attribute `INVITE_TOKEN_TTL_HOURS` and therefore always falls back to
`ACCESS_TTL_MIN` (default 15) interpreted as hours, so every invite issued
through src/routes/auth.py expires 15 hours after creation — not the
configured `INVITE_TTL_HOURS` (default 48) that the config declares for
invite TTL and that `expiry_dt` in src/utils/invites_async.py uses. -/
theorem c7_invite_expiry_ignores_configured_ttl :
    invite_expires_at defaultSettings 0 = 15 * 3600 ∧
    defaultSettings.INVITE_TTL_HOURS = 48 ∧
    invite_expires_at defaultSettings 0 ≠ 0 + 48 * 3600 ∧
    expiry_dt defaultSettings 0 = 0 + 48 * 3600 := by
  refine ⟨rfl, rfl, by decide, rfl⟩

/-! ## src/utils/deps.py — require_access_to_project -/

/-- Row of the `projects` table as read by `require_access_to_project`. -/
structure ProjectRec where
  project_id : Int
  project_org_id : Int
deriving DecidableEq, Repr

/-- Result of a FastAPI dependency: the request proceeds with a value, or an
`HTTPException` with the given status code is raised. -/
inductive DepResult (α : Type) where
  | ok (a : α)
  | httpError (status : Nat)
deriving DecidableEq, Repr

/-- `require_access_to_project` from src/utils/deps.py, after
`get_current_user` has succeeded with principal `user`: 400 when the path has
no project id; then the project row is looked up, 404 when absent; then super
admins and members of the owning org are admitted and everyone else gets 403. -/
def require_access_to_project (projects : List ProjectRec) (path_project_id : Option Int)
    (user : Principal) : DepResult Int :=
  match path_project_id with
  | none => .httpError 400
  | some pid =>
    match projects.find? (fun p => p.project_id == pid) with
    | none => .httpError 404
    | some row =>
      if user.is_super_admin then .ok row.project_org_id
      else if user.orgs.any (fun m => m.org_id == row.project_org_id) then .ok row.project_org_id
      else .httpError 403

/-- C8 fails on the code: a non-super-admin caller with no memberships who
references a nonexistent project receives 404 NotFound, not 403 Forbidden —
`require_access_to_project` performs the existence lookup before the
org-membership authorization check. -/
theorem c8_counterexample_notfound_before_forbidden :
    require_access_to_project [] (some 1) ⟨7, false, []⟩ = .httpError 404 ∧
    (DepResult.httpError 404 : DepResult Int) ≠ .httpError 403 := by
  refine ⟨rfl, by decide⟩

/-- C8 amended: in `require_access_to_project` the project-existence check
precedes the org-membership authorization check — a caller referencing a
nonexistent project receives NotFound regardless of authorization; when the
project exists, Forbidden is returned exactly when the caller is neither
super-admin nor a member of the owning organization, and a super-admin or
org-member caller is admitted with the project's org id. -/
theorem c8_existence_checked_before_authorization
    (projects : List ProjectRec) (pid : Int) (user : Principal) :
    (projects.find? (fun p => p.project_id == pid) = none →
      require_access_to_project projects (some pid) user = .httpError 404) ∧
    (∀ row, projects.find? (fun p => p.project_id == pid) = some row →
      (require_access_to_project projects (some pid) user = .httpError 403 ↔
        user.is_super_admin = false ∧
        user.orgs.any (fun m => m.org_id == row.project_org_id) = false) ∧
      (user.is_super_admin = true ∨
          user.orgs.any (fun m => m.org_id == row.project_org_id) = true →
        require_access_to_project projects (some pid) user = .ok row.project_org_id)) := by
  constructor
  · intro h
    simp [require_access_to_project, h]
  · intro row h
    constructor
    · cases hsa : user.is_super_admin with
      | true => simp [require_access_to_project, h, hsa]
      | false =>
          cases hmem : user.orgs.any (fun m => m.org_id == row.project_org_id) with
          | true => simp [require_access_to_project, h, hsa, hmem]
          | false => simp [require_access_to_project, h, hsa, hmem]
    · intro hor
      rcases hor with hsa | hmem
      · simp [require_access_to_project, h, hsa]
      · cases hsa : user.is_super_admin with
        | true => simp [require_access_to_project, h, hsa]
        | false => simp [require_access_to_project, h, hsa, hmem]

/-! ## src/routes/auth.py — relational state and the invite lifecycle

The three tables the auth routes write: `users`, `user_memberships`,
`user_invites`.  `login` and `verify_setup_token` only SELECT;
`create_org` writes only the `organizations` table, which no claim reads. -/

/-- Row of `users` (migration 84092dbfa70e): `password_hash` is nullable. -/
structure UserRec where
  user_id : Nat
  email : String
  password_hash : Option String
  is_super_admin : Bool
  is_active : Bool
deriving DecidableEq, Repr

/-- Row of `user_memberships`. -/
structure MembershipRec where
  user_id : Nat
  org_id : Int
  role : Role
deriving DecidableEq, Repr

/-- Row of `user_invites` (migration 84092dbfa70e). -/
structure InviteRec where
  invite_id : Nat
  user_id : Nat
  token_hash : String
  purpose : String
  expires_at : Int
  used_at : Option Int
  created_by_user_id : Option Nat
deriving DecidableEq, Repr

/-- The database state visible to the auth routes. -/
structure DBState where
  users : List UserRec
  memberships : List MembershipRec
  invites : List InviteRec
deriving DecidableEq, Repr

/-- Caller-visible failures of the auth routes. -/
inductive AuthError where
  | invalidOrExpired  -- HTTPException 400 "Invalid or expired token"
  | notFound          -- HTTPException 404 "User not found"
deriving DecidableEq, Repr

/-- `_revoke_open_invites` from src/routes/auth.py:
`UPDATE user_invites SET expires_at = NOW() WHERE user_id=:uid AND purpose=:p
AND used_at IS NULL AND expires_at > NOW()`. -/
def revoke_open_invites (s : DBState) (uid : Nat) (purpose : String) (now : Int) : DBState :=
  { s with invites := s.invites.map (fun i =>
      if i.user_id == uid && i.purpose == purpose && i.used_at == none
          && decide (now < i.expires_at)
      then { i with expires_at := now } else i) }

/-- `INSERT INTO user_invites (user_id, token_hash, purpose, expires_at,
created_by_user_id) VALUES (...)`. -/
def insert_invite (s : DBState) (iid uid : Nat) (th purpose : String) (exp : Int)
    (cby : Option Nat) : DBState :=
  { s with invites := s.invites ++
      [{ invite_id := iid, user_id := uid, token_hash := th, purpose := purpose,
         expires_at := exp, used_at := none, created_by_user_id := cby }] }

/-- `INSERT INTO users (email, is_super_admin, is_active) VALUES (:e, FALSE,
FALSE)`: users are created inactive and passwordless. -/
def insert_inactive_user (s : DBState) (uid : Nat) (email : String) : DBState :=
  { s with users := s.users ++
      [{ user_id := uid, email := email, password_hash := none,
         is_super_admin := false, is_active := false }] }

/-- `INSERT INTO user_memberships (user_id, org_id, role) VALUES (...)`. -/
def insert_membership (s : DBState) (uid : Nat) (org : Int) (role : Role) : DBState :=
  { s with memberships := s.memberships ++
      [{ user_id := uid, org_id := org, role := role }] }

/-- `create_admin` handler body (after the super-admin guard): insert an
inactive passwordless user and an ADMIN membership, revoke open invites for
the fresh user id, then insert the new invite with expiry
`_invite_expires_at`. -/
def create_admin (cfg : Settings) (s : DBState) (uid : Nat) (email : String) (org : Int)
    (iid : Nat) (th : String) (now : Int) : DBState :=
  insert_invite
    (revoke_open_invites (insert_membership (insert_inactive_user s uid email) uid org Role.ADMIN)
      uid "SET_PASSWORD" now)
    iid uid th "SET_PASSWORD" (invite_expires_at cfg now) none

/-- `create_user` handler body (after the admin-of-target-org guard): same as
`create_admin` but with a USER membership and the creator recorded. -/
def create_user (cfg : Settings) (s : DBState) (uid : Nat) (email : String) (org : Int)
    (iid : Nat) (th : String) (creator : Nat) (now : Int) : DBState :=
  insert_invite
    (revoke_open_invites (insert_membership (insert_inactive_user s uid email) uid org Role.USER)
      uid "SET_PASSWORD" now)
    iid uid th "SET_PASSWORD" (invite_expires_at cfg now) (some creator)

/-- `resend_invite` handler body (after the super-admin guard): 404 when the
user does not exist; else revoke open invites and insert a fresh one.  The
pair is (HTTP result, post-state); the 404 path commits nothing. -/
def resend_invite (cfg : Settings) (s : DBState) (uid iid : Nat) (th : String)
    (now : Int) : (Except AuthError Unit) × DBState :=
  if s.users.any (fun u => u.user_id == uid) then
    (.ok (), insert_invite (revoke_open_invites s uid "SET_PASSWORD" now)
      iid uid th "SET_PASSWORD" (invite_expires_at cfg now) none)
  else (.error .notFound, s)

/-- `SELECT ... FROM user_invites WHERE token_hash=:th AND purpose=:p`,
read through SQLAlchemy's `.first()`. -/
def find_invite (s : DBState) (th purpose : String) : Option InviteRec :=
  s.invites.find? (fun i => i.token_hash == th && i.purpose == purpose)

/-- `verify_setup_token` GET handler: hash the presented token, look the
invite up, reject unknown/used/strictly-expired ones with 400, otherwise
report the expiry.  Only SELECTs are issued; the pair is (result, state). -/
def verify_setup_token (hash_token : String → String) (s : DBState) (token : String)
    (now : Int) : (Except AuthError Int) × DBState :=
  match find_invite s (hash_token token) "SET_PASSWORD" with
  | none => (.error .invalidOrExpired, s)
  | some inv =>
    if inv.used_at != none || decide (inv.expires_at < now) then
      (.error .invalidOrExpired, s)
    else (.ok inv.expires_at, s)

/-- `setup_password` POST handler: hash the presented token, look the invite
up, reject unknown/used/strictly-expired ones with 400 and no writes;
otherwise set the user's password hash and activate the user, mark the invite
used, and commit — one transaction. -/
def setup_password (hash_token hash_password : String → String) (s : DBState)
    (token new_password : String) (now : Int) : (Except AuthError Unit) × DBState :=
  match find_invite s (hash_token token) "SET_PASSWORD" with
  | none => (.error .invalidOrExpired, s)
  | some inv =>
    if inv.used_at != none || decide (inv.expires_at < now) then
      (.error .invalidOrExpired, s)
    else
      (.ok (), { s with
        users := s.users.map (fun (u : UserRec) =>
          if u.user_id == inv.user_id then
            { u with password_hash := some (hash_password new_password), is_active := true }
          else u),
        invites := s.invites.map (fun (i : InviteRec) =>
          if i.invite_id == inv.invite_id then { i with used_at := some now } else i) })

/-- C10: the invite pre-check `verify_setup_token` is read-only — whatever
the token (valid, unknown, already used, or expired), the state after the
request equals the state before; in particular it never consumes the invite
or alters `expires_at`/`used_at`. -/
theorem c10_verify_setup_token_readonly (hash_token : String → String) (s : DBState)
    (token : String) (now : Int) :
    (verify_setup_token hash_token s token now).2 = s := by
  unfold verify_setup_token
  rcases h : find_invite s (hash_token token) "SET_PASSWORD" with _ | inv
  · simp [h]
  · simp only [h]
    split <;> rfl

/-! ## The subsystem as a transition system -/

/-- One committed state transition of the auth subsystem.  `login` and
`verify_setup_token` only SELECT from these tables and `create_org` writes
only `organizations`, so they induce no transition.  The `fresh` side
conditions model `secrets.token_urlsafe(32)`: a newly generated 256-bit
random token never re-hashes to the token hash of an already-stored
invite. -/
inductive Step (cfg : Settings) (hash_token hash_password : String → String) :
    DBState → DBState → Prop
  | admin_created (s : DBState) (uid : Nat) (email : String) (org : Int) (iid : Nat)
      (th : String) (now : Int)
      (fresh : ∀ i ∈ s.invites, i.token_hash ≠ th) :
      Step cfg hash_token hash_password s (create_admin cfg s uid email org iid th now)
  | user_created (s : DBState) (uid : Nat) (email : String) (org : Int) (iid : Nat)
      (th : String) (creator : Nat) (now : Int)
      (fresh : ∀ i ∈ s.invites, i.token_hash ≠ th) :
      Step cfg hash_token hash_password s (create_user cfg s uid email org iid th creator now)
  | invite_resent (s s' : DBState) (uid iid : Nat) (th : String) (now : Int)
      (r : Except AuthError Unit)
      (fresh : ∀ i ∈ s.invites, i.token_hash ≠ th)
      (h : resend_invite cfg s uid iid th now = (r, s')) :
      Step cfg hash_token hash_password s s'
  | password_set (s s' : DBState) (token new_password : String) (now : Int)
      (r : Except AuthError Unit)
      (h : setup_password hash_token hash_password s token new_password now = (r, s')) :
      Step cfg hash_token hash_password s s'

/-- Reflexive-transitive closure of `Step`: the states the subsystem can
reach from a given one. -/
def Reachable (cfg : Settings) (hash_token hash_password : String → String) :
    DBState → DBState → Prop :=
  Relation.ReflTransGen (Step cfg hash_token hash_password)

/-- The standing constraint `ck_active_users_have_password`
(migration 84092dbfa70e): `(is_active = false) OR (password_hash IS NOT NULL)`. -/
def activeHasPassword (s : DBState) : Prop :=
  ∀ u ∈ s.users, u.is_active = true → u.password_hash ≠ none

/-- Every single transition preserves the active-implies-password invariant:
issuance inserts inactive passwordless users and touches no user row
otherwise, and redemption writes the password hash and the active flag in the
same row update. -/
theorem step_preserves_activeHasPassword
    {cfg : Settings} {hash_token hash_password : String → String} {s s' : DBState}
    (hstep : Step cfg hash_token hash_password s s') (hinv : activeHasPassword s) :
    activeHasPassword s' := by
  cases hstep with
  | admin_created uid email org iid th now fresh =>
      intro u hu hact
      simp only [create_admin, insert_invite, revoke_open_invites, insert_membership,
        insert_inactive_user, List.mem_append, List.mem_singleton] at hu
      rcases hu with hu | hu
      · exact hinv u hu hact
      · rw [hu] at hact
        simp at hact
  | user_created uid email org iid th creator now fresh =>
      intro u hu hact
      simp only [create_user, insert_invite, revoke_open_invites, insert_membership,
        insert_inactive_user, List.mem_append, List.mem_singleton] at hu
      rcases hu with hu | hu
      · exact hinv u hu hact
      · rw [hu] at hact
        simp at hact
  | invite_resent s' uid iid th now r fresh h =>
      unfold resend_invite at h
      split at h
      · rw [← (Prod.mk.injEq _ _ _ _).mp h |>.2]
        intro u hu hact
        simp only [insert_invite, revoke_open_invites] at hu
        exact hinv u hu hact
      · rw [← (Prod.mk.injEq _ _ _ _).mp h |>.2]
        exact hinv
  | password_set s' token new_password now r h =>
      unfold setup_password at h
      split at h
      · rw [← (Prod.mk.injEq _ _ _ _).mp h |>.2]
        exact hinv
      · rename_i inv hfind
        split at h
        · rw [← (Prod.mk.injEq _ _ _ _).mp h |>.2]
          exact hinv
        · rw [← (Prod.mk.injEq _ _ _ _).mp h |>.2]
          intro u hu hact
          simp only [List.mem_map] at hu
          rcases hu with ⟨v, hv, hvu⟩
          by_cases hid : (v.user_id == inv.user_id) = true
          · rw [← hvu]
            simp [hid]
          · rw [← hvu] at hact ⊢
            simp only [hid, if_neg, Bool.false_eq_true, ite_false] at hact ⊢
            exact hinv v hv hact

/-- C3: in every state reachable from a state satisfying the standing
constraint (for instance the empty database, or the seeded one whose
super-admin is created active together with a bcrypt hash), every user record
with `is_active = true` has a non-null password hash: users are created
inactive and passwordless, and only redemption activates a user — setting the
password hash in the same row update. -/
theorem c3_active_users_have_password_hash
    (cfg : Settings) (hash_token hash_password : String → String) (s0 s : DBState)
    (h0 : activeHasPassword s0)
    (hr : Reachable cfg hash_token hash_password s0 s) :
    activeHasPassword s := by
  induction hr with
  | refl => exact h0
  | tail _ hstep ih => exact step_preserves_activeHasPassword hstep ih

/-- The empty database. -/
def emptyDB : DBState := { users := [], memberships := [], invites := [] }

/-- A concrete token-hash or password-hash stand-in used by witnesses. -/
def sampleHash : String → String := fun t => String.append t "#h"

/-- Witness for C3: the invariant holds in the state reached from the empty
database by creating an invited admin and then redeeming the invite. -/
theorem c3_active_users_have_password_hash_witness :
    activeHasPassword
      (setup_password sampleHash sampleHash
        (create_admin defaultSettings emptyDB 1 "a@example.com" 1 1 (sampleHash "tok") 0)
        "tok" "password1" 10).2 :=
  c3_active_users_have_password_hash defaultSettings sampleHash sampleHash emptyDB _
    (by intro u hu; cases hu)
    (Relation.ReflTransGen.tail
      (Relation.ReflTransGen.single
        (Step.admin_created emptyDB 1 "a@example.com" 1 1 (sampleHash "tok") 0
          (by intro i hi; cases hi)))
      (Step.password_set _ _ "tok" "password1" 10 _ rfl))

/-! ## C6: at most one redeemable invite per (user, purpose) after issuance -/

/-- The invites of `s` for (uid, purpose) still redeemable at time `t`:
`used_at IS NULL AND expires_at > t`, the very predicate by which
`_revoke_open_invites` selects the rows it sets to expired. -/
def open_invites_for (s : DBState) (uid : Nat) (purpose : String) (t : Int) : List InviteRec :=
  s.invites.filter (fun i => i.user_id == uid && i.purpose == purpose
    && i.used_at == none && decide (t < i.expires_at))

/-- Right after `_revoke_open_invites` runs at time `now`, no invite for
(uid, purpose) is still open at `now`. -/
theorem open_invites_after_revoke (s : DBState) (uid : Nat) (p : String) (now : Int) :
    open_invites_for (revoke_open_invites s uid p now) uid p now = [] := by
  unfold open_invites_for revoke_open_invites
  rw [List.filter_eq_nil_iff]
  intro j hj
  simp only [List.mem_map] at hj
  rcases hj with ⟨i, hi, rfl⟩
  by_cases hc : (i.user_id == uid && i.purpose == p && i.used_at == none
      && decide (now < i.expires_at)) = true
  · rw [if_pos hc]
    simp
  · rw [if_neg hc]
    exact fun hcc => hc hcc

/-- Revoke-then-insert leaves at most the just-inserted invite open for
(uid, "SET_PASSWORD") at issuance time. -/
theorem open_invites_insert_after_revoke (s : DBState) (uid iid : Nat) (th : String)
    (e : Int) (cby : Option Nat) (now : Int) :
    (open_invites_for
        (insert_invite (revoke_open_invites s uid "SET_PASSWORD" now)
          iid uid th "SET_PASSWORD" e cby)
        uid "SET_PASSWORD" now).length ≤ 1 := by
  have h := open_invites_after_revoke s uid "SET_PASSWORD" now
  unfold open_invites_for at h ⊢
  unfold insert_invite
  rw [List.filter_append, h, List.nil_append]
  exact le_trans (List.length_filter_le _ _) (by simp)

/-- C6: each issuance operation (`create_admin`, `create_user`,
`resend_invite`) revokes the open invites for the target (user, purpose)
before inserting the new one, inside the same transaction, so at completion
at most one invite for (user, "SET_PASSWORD") is still redeemable; and
revoking when nothing is open is a no-op. -/
theorem c6_at_most_one_open_invite_after_issuance
    (cfg : Settings) (s : DBState) (uid iid : Nat) (email th p : String) (org : Int)
    (creator : Nat) (now : Int) :
    (open_invites_for (create_admin cfg s uid email org iid th now)
        uid "SET_PASSWORD" now).length ≤ 1 ∧
    (open_invites_for (create_user cfg s uid email org iid th creator now)
        uid "SET_PASSWORD" now).length ≤ 1 ∧
    (∀ s', resend_invite cfg s uid iid th now = (.ok (), s') →
      (open_invites_for s' uid "SET_PASSWORD" now).length ≤ 1) ∧
    (open_invites_for s uid p now = [] → revoke_open_invites s uid p now = s) := by
  refine ⟨?_, ?_, ?_, ?_⟩
  · exact open_invites_insert_after_revoke _ uid iid th _ none now
  · exact open_invites_insert_after_revoke _ uid iid th _ (some creator) now
  · intro s' h
    unfold resend_invite at h
    split at h
    · rw [← ((Prod.mk.injEq _ _ _ _).mp h).2]
      exact open_invites_insert_after_revoke s uid iid th _ none now
    · exact absurd ((Prod.mk.injEq _ _ _ _).mp h).1 (by simp)
  · intro h
    unfold open_invites_for at h
    rw [List.filter_eq_nil_iff] at h
    unfold revoke_open_invites
    have hmap : s.invites.map (fun i =>
        if i.user_id == uid && i.purpose == p && i.used_at == none
            && decide (now < i.expires_at)
        then { i with expires_at := now } else i) = s.invites := by
      have h2 : ∀ i ∈ s.invites,
          (if i.user_id == uid && i.purpose == p && i.used_at == none
              && decide (now < i.expires_at)
           then { i with expires_at := now } else i) = id i :=
        fun i hi => by rw [if_neg (h i hi)]; rfl
      rw [List.map_eq_map_iff.mpr h2, List.map_id]
    rw [hmap]

/-! ## C4: the redemption predicate of setup_password -/

/-- A freshly invited user, pending and passwordless. -/
def exUser : UserRec :=
  { user_id := 1, email := "u@example.com", password_hash := none,
    is_super_admin := false, is_active := false }

/-- A pending invite for `exUser` whose expiry is exactly time 100. -/
def exInvite : InviteRec :=
  { invite_id := 1, user_id := 1, token_hash := sampleHash "tok",
    purpose := "SET_PASSWORD", expires_at := 100, used_at := none,
    created_by_user_id := none }

/-- A database holding `exUser` and `exInvite`. -/
def exDB : DBState := { users := [exUser], memberships := [], invites := [exInvite] }

/-- C4 fails as stated: when the current time equals the invite's expiry the
claim's success predicate `expires_at > now()` is false, yet redemption
succeeds, because `setup_password` rejects only on `expires_at < now`. -/
theorem c4_counterexample_redeems_at_expiry_instant :
    (setup_password sampleHash sampleHash exDB "tok" "password1" 100).1 = .ok () ∧
    find_invite exDB (sampleHash "tok") "SET_PASSWORD" = some exInvite ∧
    ¬ (100 : Int) < exInvite.expires_at :=
  ⟨rfl, rfl, by decide⟩

/-- C4 amended: redemption succeeds iff looking up the presented token's hash
with purpose SET_PASSWORD finds an invite with `used_at` null and expiry at
or after the current time (the code rejects only `expires_at < now`); every
failure is the single `InvalidOrExpired` outcome and leaves the state
unchanged; success sets the user's password hash and active flag and marks
the invite used, in one transaction. -/
theorem c4_redemption_characterized (hash_token hash_password : String → String)
    (s : DBState) (token pw : String) (now : Int) :
    ((setup_password hash_token hash_password s token pw now).1 = .ok () ↔
      ∃ inv, find_invite s (hash_token token) "SET_PASSWORD" = some inv ∧
        inv.used_at = none ∧ now ≤ inv.expires_at) ∧
    (∀ e, (setup_password hash_token hash_password s token pw now).1 = .error e →
      e = .invalidOrExpired ∧ (setup_password hash_token hash_password s token pw now).2 = s) ∧
    (∀ inv, find_invite s (hash_token token) "SET_PASSWORD" = some inv →
      (setup_password hash_token hash_password s token pw now).1 = .ok () →
      (∀ u ∈ (setup_password hash_token hash_password s token pw now).2.users,
        u.user_id = inv.user_id →
        u.is_active = true ∧ u.password_hash = some (hash_password pw)) ∧
      (∃ i ∈ (setup_password hash_token hash_password s token pw now).2.invites,
        i.invite_id = inv.invite_id ∧ i.user_id = inv.user_id ∧ i.used_at = some now)) := by
  rcases hfind : find_invite s (hash_token token) "SET_PASSWORD" with _ | inv
  · have hpost : setup_password hash_token hash_password s token pw now
        = (.error .invalidOrExpired, s) := by
      unfold setup_password
      simp only [hfind]
    rw [hpost]
    refine ⟨by simp, ?_, ?_⟩
    · intro e he
      simp only at he
      injection he with he2
      exact ⟨he2.symm, rfl⟩
    · intro inv h
      exact absurd h (by simp)
  · by_cases hcond : (inv.used_at != none || decide (inv.expires_at < now)) = true
    · have hpost : setup_password hash_token hash_password s token pw now
          = (.error .invalidOrExpired, s) := by
        unfold setup_password
        simp only [hfind]
        rw [if_pos hcond]
      rw [hpost]
      refine ⟨?_, ?_, ?_⟩
      · simp only [Prod.fst]
        constructor
        · intro h
          exact absurd h (by simp)
        · rintro ⟨inv2, hinv2, hused, hexp⟩
          cases hinv2
          rcases Bool.or_eq_true_iff.mp hcond with hu | he
          · exact absurd hused (by simpa using hu)
          · exact absurd hexp (by simpa using of_decide_eq_true he)
      · intro e he
        simp only at he
        injection he with he2
        exact ⟨he2.symm, rfl⟩
      · intro inv2 hinv2 hok
        simp only at hok
        exact absurd hok (by simp)
    · have hused : inv.used_at = none := by
        rcases h : inv.used_at with _ | t
        · rfl
        · rw [h] at hcond
          simp at hcond
      have hexp : now ≤ inv.expires_at := by
        rcases not_or.mp (Bool.or_eq_true_iff.not.mp hcond) with ⟨_, he⟩
        exact le_of_not_lt (fun hlt => he (by simpa using hlt))
      have hpost : setup_password hash_token hash_password s token pw now
          = (.ok (), { s with
              users := s.users.map (fun (u : UserRec) =>
                if u.user_id == inv.user_id then
                  { u with password_hash := some (hash_password pw), is_active := true }
                else u),
              invites := s.invites.map (fun (i : InviteRec) =>
                if i.invite_id == inv.invite_id then { i with used_at := some now }
                else i) }) := by
        unfold setup_password
        simp only [hfind]
        rw [if_neg hcond]
      rw [hpost]
      refine ⟨?_, ?_, ?_⟩
      · exact ⟨fun _ => ⟨inv, rfl, hused, hexp⟩, fun _ => rfl⟩
      · intro e he
        simp only at he
        exact absurd he (by simp)
      · intro inv2 hinv2 _
        cases hinv2
        constructor
        · intro u hu hid
          simp only [List.mem_map] at hu
          rcases hu with ⟨v, hv, rfl⟩
          by_cases hvid : (v.user_id == inv.user_id) = true
          · simp [hvid]
          · rw [if_neg hvid] at hid ⊢
            exact absurd (beq_iff_eq.mpr hid) hvid
        · have hmem : inv ∈ s.invites := List.mem_of_find?_eq_some hfind
          refine ⟨{ inv with used_at := some now }, ?_, rfl, rfl, rfl⟩
          simp only [List.mem_map]
          exact ⟨inv, hmem, by rw [if_pos (beq_iff_eq.mpr rfl)]⟩

/-! ## C5: exactly-once redemption -/

/-- The lookup key used by `find_invite`. -/
def inviteKey (th p : String) (i : InviteRec) : Bool :=
  i.token_hash == th && i.purpose == p

theorem find_invite_eq_find? (s : DBState) (th p : String) :
    find_invite s th p = s.invites.find? (inviteKey th p) := rfl

/-- After a token has been redeemed: some stored invite carries its hash, and
the invite that lookup by that hash returns is marked used. -/
def TokenConsumed (s : DBState) (th : String) : Prop :=
  (∃ i ∈ s.invites, i.token_hash = th) ∧
  (∀ inv, find_invite s th "SET_PASSWORD" = some inv → inv.used_at ≠ none)

/-- `TokenConsumed` survives any table rewrite that preserves each row's
token hash and purpose, never clears `used_at`, and appends only rows with
other token hashes. -/
theorem tokenConsumed_map_append (s : DBState) (th : String)
    (f : InviteRec → InviteRec) (extra : List InviteRec)
    (hf : ∀ i, (f i).token_hash = i.token_hash ∧ (f i).purpose = i.purpose ∧
      ((f i).used_at = i.used_at ∨ (f i).used_at ≠ none))
    (hextra : ∀ j ∈ extra, j.token_hash ≠ th)
    (hc : TokenConsumed s th) (s' : DBState)
    (hinv : s'.invites = s.invites.map f ++ extra) :
    TokenConsumed s' th := by
  obtain ⟨⟨i0, hi0, hi0th⟩, hfind⟩ := hc
  have hkey : inviteKey th "SET_PASSWORD" ∘ f = inviteKey th "SET_PASSWORD" := by
    funext i
    simp only [Function.comp_apply, inviteKey, (hf i).1, (hf i).2.1]
  constructor
  · refine ⟨f i0, ?_, ?_⟩
    · rw [hinv]
      exact List.mem_append_left _ (List.mem_map_of_mem f hi0)
    · rw [(hf i0).1]
      exact hi0th
  · intro inv h
    rw [find_invite_eq_find?, hinv, List.find?_append, List.find?_map, hkey] at h
    rcases hmain : s.invites.find? (inviteKey th "SET_PASSWORD") with _ | a
    · rw [hmain] at h
      simp only [Option.map_none', Option.none_or] at h
      have hmem := List.mem_of_find?_eq_some h
      have hkeya := List.find?_some h
      simp only [inviteKey, Bool.and_eq_true, beq_iff_eq] at hkeya
      exact absurd hkeya.1 (hextra inv hmem)
    · rw [hmain] at h
      simp only [Option.map_some', Option.or_some] at h
      cases h
      have ha := hfind a (by rw [find_invite_eq_find?]; exact hmain)
      rcases (hf a).2.2 with h1 | h1
      · rw [h1]
        exact ha
      · exact h1

/-- Every transition of the subsystem preserves `TokenConsumed`: revocation
touches only `expires_at`, redemption only ever writes `used_at`, and
issuance inserts invites with fresh token hashes. -/
theorem step_preserves_tokenConsumed
    {cfg : Settings} {hash_token hash_password : String → String} {s s' : DBState}
    (th : String) (hstep : Step cfg hash_token hash_password s s')
    (hc : TokenConsumed s th) : TokenConsumed s' th := by
  have hthne : ∀ th2, (∀ i ∈ s.invites, i.token_hash ≠ th2) → th2 ≠ th := by
    intro th2 hfr heq
    obtain ⟨⟨i0, hi0, hi0th⟩, -⟩ := hc
    exact hfr i0 hi0 (by rw [hi0th, heq])
  have hrevoke : ∀ (uid : Nat) (p : String) (now : Int) (i : InviteRec),
      ((if i.user_id == uid && i.purpose == p && i.used_at == none
          && decide (now < i.expires_at)
        then { i with expires_at := now } else i).token_hash = i.token_hash ∧
       (if i.user_id == uid && i.purpose == p && i.used_at == none
          && decide (now < i.expires_at)
        then { i with expires_at := now } else i).purpose = i.purpose ∧
       ((if i.user_id == uid && i.purpose == p && i.used_at == none
          && decide (now < i.expires_at)
        then { i with expires_at := now } else i).used_at = i.used_at ∨
        (if i.user_id == uid && i.purpose == p && i.used_at == none
          && decide (now < i.expires_at)
        then { i with expires_at := now } else i).used_at ≠ none)) := by
    intro uid p now i
    by_cases hci : (i.user_id == uid && i.purpose == p && i.used_at == none
        && decide (now < i.expires_at)) = true
    · rw [if_pos hci]
      exact ⟨rfl, rfl, Or.inl rfl⟩
    · rw [if_neg hci]
      exact ⟨rfl, rfl, Or.inl rfl⟩
  cases hstep with
  | admin_created uid email org iid th2 now fresh =>
      refine tokenConsumed_map_append s th _
        [{ invite_id := iid, user_id := uid, token_hash := th2, purpose := "SET_PASSWORD",
           expires_at := invite_expires_at cfg now, used_at := none,
           created_by_user_id := none }]
        (hrevoke uid "SET_PASSWORD" now) ?_ hc _ ?_
      · intro j hj
        rw [List.mem_singleton] at hj
        subst hj
        exact hthne th2 fresh
      · simp [create_admin, insert_invite, revoke_open_invites, insert_membership,
          insert_inactive_user]
  | user_created uid email org iid th2 creator now fresh =>
      refine tokenConsumed_map_append s th _
        [{ invite_id := iid, user_id := uid, token_hash := th2, purpose := "SET_PASSWORD",
           expires_at := invite_expires_at cfg now, used_at := none,
           created_by_user_id := some creator }]
        (hrevoke uid "SET_PASSWORD" now) ?_ hc _ ?_
      · intro j hj
        rw [List.mem_singleton] at hj
        subst hj
        exact hthne th2 fresh
      · simp [create_user, insert_invite, revoke_open_invites, insert_membership,
          insert_inactive_user]
  | invite_resent s' uid iid th2 now r fresh h =>
      unfold resend_invite at h
      split at h
      · obtain ⟨-, hs'⟩ := (Prod.mk.injEq _ _ _ _).mp h
        refine tokenConsumed_map_append s th _
          [{ invite_id := iid, user_id := uid, token_hash := th2, purpose := "SET_PASSWORD",
             expires_at := invite_expires_at cfg now, used_at := none,
             created_by_user_id := none }]
          (hrevoke uid "SET_PASSWORD" now) ?_ hc _ ?_
        · intro j hj
          rw [List.mem_singleton] at hj
          subst hj
          exact hthne th2 fresh
        · rw [← hs']
          simp [insert_invite, revoke_open_invites]
      · obtain ⟨-, hs'⟩ := (Prod.mk.injEq _ _ _ _).mp h
        rw [← hs']
        exact hc
  | password_set s' token new_password now r h =>
      unfold setup_password at h
      rcases hfind : find_invite s (hash_token token) "SET_PASSWORD" with _ | inv
      · rw [hfind] at h
        obtain ⟨-, hs'⟩ := (Prod.mk.injEq _ _ _ _).mp h
        rw [← hs']
        exact hc
      · simp only [hfind] at h
        by_cases hcond : (inv.used_at != none || decide (inv.expires_at < now)) = true
        · rw [if_pos hcond] at h
          obtain ⟨-, hs'⟩ := (Prod.mk.injEq _ _ _ _).mp h
          rw [← hs']
          exact hc
        · rw [if_neg hcond] at h
          obtain ⟨-, hs'⟩ := (Prod.mk.injEq _ _ _ _).mp h
          refine tokenConsumed_map_append s th
            (fun (i : InviteRec) =>
              if i.invite_id == inv.invite_id then { i with used_at := some now } else i)
            [] ?_ (by intro j hj; cases hj) hc _ ?_
          · intro i
            dsimp only
            by_cases hci : (i.invite_id == inv.invite_id) = true
            · rw [if_pos hci]
              exact ⟨rfl, rfl, Or.inr (by simp)⟩
            · rw [if_neg hci]
              exact ⟨rfl, rfl, Or.inl rfl⟩
          · rw [← hs']
            simp

/-- A successful redemption leaves the redeemed token consumed. -/
theorem setup_ok_consumed (hash_token hash_password : String → String) (s : DBState)
    (token pw : String) (now : Int) (s1 : DBState)
    (h : setup_password hash_token hash_password s token pw now = (.ok (), s1)) :
    TokenConsumed s1 (hash_token token) := by
  unfold setup_password at h
  rcases hfind : find_invite s (hash_token token) "SET_PASSWORD" with _ | inv
  · rw [hfind] at h
    cases ((Prod.mk.injEq _ _ _ _).mp h).1
  · simp only [hfind] at h
    by_cases hcond : (inv.used_at != none || decide (inv.expires_at < now)) = true
    · rw [if_pos hcond] at h
      cases ((Prod.mk.injEq _ _ _ _).mp h).1
    · rw [if_neg hcond] at h
      obtain ⟨-, hs1⟩ := (Prod.mk.injEq _ _ _ _).mp h
      have hkeyinv := List.find?_some hfind
      simp only [inviteKey, Bool.and_eq_true, beq_iff_eq] at hkeyinv
      have hmem : inv ∈ s.invites := List.mem_of_find?_eq_some hfind
      have hg : ∀ (i : InviteRec),
          ((if i.invite_id == inv.invite_id then { i with used_at := some now }
            else i).token_hash = i.token_hash ∧
           (if i.invite_id == inv.invite_id then { i with used_at := some now }
            else i).purpose = i.purpose) := by
        intro i
        by_cases hci : (i.invite_id == inv.invite_id) = true
        · rw [if_pos hci]
          exact ⟨rfl, rfl⟩
        · rw [if_neg hci]
          exact ⟨rfl, rfl⟩
      have hkey : inviteKey (hash_token token) "SET_PASSWORD" ∘
          (fun (i : InviteRec) =>
            if i.invite_id == inv.invite_id then { i with used_at := some now } else i)
          = inviteKey (hash_token token) "SET_PASSWORD" := by
        funext i
        simp only [Function.comp_apply, inviteKey, (hg i).1, (hg i).2]
      constructor
      · refine ⟨{ inv with used_at := some now }, ?_, hkeyinv.1⟩
        rw [← hs1]
        simp only [List.mem_map]
        exact ⟨inv, hmem, by rw [if_pos (beq_iff_eq.mpr rfl)]⟩
      · intro inv2 h2
        rw [find_invite_eq_find?, ← hs1] at h2
        simp only at h2
        rw [List.find?_map, hkey] at h2
        have hfind2 : List.find? (inviteKey (hash_token token) "SET_PASSWORD") s.invites
            = some inv := hfind
        rw [hfind2] at h2
        simp only [Option.map_some'] at h2
        cases h2
        rw [if_pos (beq_iff_eq.mpr rfl)]
        simp

/-- Against a consumed token, `setup_password` always fails with
`InvalidOrExpired`. -/
theorem consumed_rejects (hash_token hash_password : String → String) (s : DBState)
    (token pw : String) (now : Int)
    (hc : TokenConsumed s (hash_token token)) :
    (setup_password hash_token hash_password s token pw now).1
      = .error .invalidOrExpired := by
  unfold setup_password
  rcases hfind : find_invite s (hash_token token) "SET_PASSWORD" with _ | inv
  · simp only [hfind]
  · simp only [hfind]
    rw [if_pos (Bool.or_eq_true_iff.mpr (Or.inl (bne_iff_ne.mpr (hc.2 inv hfind))))]

/-- C5: exactly-once redemption — once a raw invite token has been redeemed
successfully (its invite's `used_at` set), every later redemption attempt
with the same raw token fails with `InvalidOrExpired`, across every sequence
of subsequent operations: nothing ever clears `used_at`, and fresh
issuances never reuse a stored token hash. -/
theorem c5_redeemed_token_never_redeems_again
    (cfg : Settings) (hash_token hash_password : String → String)
    (s s1 s2 : DBState) (token pw : String) (t : Int)
    (hok : setup_password hash_token hash_password s token pw t = (.ok (), s1))
    (hreach : Reachable cfg hash_token hash_password s1 s2)
    (pw2 : String) (t2 : Int) :
    (setup_password hash_token hash_password s2 token pw2 t2).1
      = .error .invalidOrExpired := by
  have hc : TokenConsumed s2 (hash_token token) := by
    induction hreach with
    | refl => exact setup_ok_consumed hash_token hash_password s token pw t s1 hok
    | tail _ hstep ih => exact step_preserves_tokenConsumed _ hstep ih
  exact consumed_rejects hash_token hash_password s2 token pw2 t2 hc

/-- Witness for C5: redeem the sample invite at time 0, then try the same
raw token again at time 50. -/
theorem c5_redeemed_token_never_redeems_again_witness :
    (setup_password sampleHash sampleHash
        (setup_password sampleHash sampleHash exDB "tok" "password1" 0).2
        "tok" "password2" 50).1 = .error .invalidOrExpired :=
  c5_redeemed_token_never_redeems_again defaultSettings sampleHash sampleHash exDB
    (setup_password sampleHash sampleHash exDB "tok" "password1" 0).2
    (setup_password sampleHash sampleHash exDB "tok" "password1" 0).2
    "tok" "password1" 0 rfl Relation.ReflTransGen.refl "password2" 50

end MiniRag
